import Mathlib

/-! Verification of the TreadMore step-sequence scheduler and its pattern
generators, translated from `src/App.tsx` (current application) together with
the deterministic transport semantics of `src/__tests__/toneMock.ts`.
Numbers are modelled as exact rationals; the console logger (`logEvent`) is an
external side effect and is not part of the modelled scheduler state.
-/

inductive Foot where
  | L
  | R
deriving DecidableEq

inductive DisplaySprite where
  | L
  | R
  | Lj
  | Rj
deriving DecidableEq

/-- Tagged union `SequenceAction` from App.tsx: a tone trigger or a sprite
change, each carrying a time offset within the cycle. -/
inductive SequenceAction where
  | tone (offset : ℚ) (foot : Foot) (note : String)
  | sprite (offset : ℚ) (sprite : DisplaySprite)
deriving DecidableEq

structure StepSequence where
  name : String
  duration : ℚ
  actions : List SequenceAction
deriving DecidableEq

def SequenceAction.offset : SequenceAction → ℚ
  | .tone o _ _ => o
  | .sprite o _ => o

def PERIOD_MIN : ℚ := 1 / 2

def PERIOD_MAX : ℚ := 2

def ASYMMETRY_EPSILON : ℚ := 1 / 1000

def INTERVAL_SWITCH_CAP : ℚ := 1 / 10

def SCHEDULER_LOOKAHEAD : ℚ := 1 / 10

def LEFT_NOTE : String := "C5"

def RIGHT_NOTE : String := "E5"

def clampPeriod (value : ℚ) : ℚ :=
  min PERIOD_MAX (max PERIOD_MIN value)

def clampAsymmetry (value : ℚ) : ℚ :=
  min (1 - ASYMMETRY_EPSILON) (max ASYMMETRY_EPSILON value)

/-- Helper `minSwitch(...intervals)` = `Math.min(INTERVAL_SWITCH_CAP, ...intervals.map(i => i / 3))`. -/
def minSwitch (intervals : List ℚ) : ℚ :=
  intervals.foldl (fun m i => min m (i / 3)) INTERVAL_SWITCH_CAP

/-- Generator `WalkJogPattern.build` from App.tsx; the asymmetry argument is unused
(`_asymmetry` in the source). -/
def WalkJogPattern.build (period : ℚ) (_asymmetry : ℚ) : StepSequence :=
  let safePeriod := clampPeriod period
  let intervalLR := safePeriod / 2
  let intervalRL := intervalLR
  let intervalSwitch := minSwitch [intervalLR, intervalRL]
  { name := "walk/jog"
  , duration := intervalLR + intervalRL
  , actions :=
      [ .tone 0 .L LEFT_NOTE
      , .sprite intervalSwitch .Lj
      , .tone intervalLR .R RIGHT_NOTE
      , .sprite (intervalLR + intervalSwitch) .Rj ] }

/-- Generator `SkipPattern.build` from App.tsx; the mutable accumulator `t` is written
out as `t0 … t8`. -/
def SkipPattern.build (period : ℚ) (asymmetry : ℚ) : StepSequence :=
  let safePeriod := clampPeriod period
  let as := clampAsymmetry asymmetry
  let intervalRR := safePeriod / 2 * as
  let intervalRL := safePeriod * (1 - as / 2)
  let intervalLL := intervalRR
  let intervalLR := intervalRL
  let intervalSwitch := minSwitch [intervalLL, intervalRR, intervalLR, intervalRL]
  let t0 : ℚ := 0
  let t1 := t0 + intervalSwitch
  let t2 := t1 + (intervalLR - intervalSwitch)
  let t3 := t2 + intervalSwitch
  let t4 := t3 + (intervalRR - intervalSwitch)
  let t5 := t4 + intervalSwitch
  let t6 := t5 + (intervalRL - intervalSwitch)
  let t7 := t6 + intervalSwitch
  let t8 := t7 + (intervalLL - intervalSwitch)
  { name := "skip"
  , duration := t8
  , actions :=
      [ .tone t0 .L LEFT_NOTE
      , .sprite t1 .Lj
      , .tone t2 .R RIGHT_NOTE
      , .sprite t3 .Rj
      , .tone t4 .R RIGHT_NOTE
      , .sprite t5 .Rj
      , .tone t6 .L LEFT_NOTE
      , .sprite t7 .Lj ] }

/-- Generator `GallopPattern.build` from App.tsx (current application):
`intervalRL = safePeriod * as`, `intervalLR = safePeriod * (1 - as)`. -/
def GallopPattern.build (period : ℚ) (asymmetry : ℚ) : StepSequence :=
  let safePeriod := clampPeriod period
  let as := clampAsymmetry asymmetry
  let intervalRL := safePeriod * as
  let intervalLR := safePeriod * (1 - as)
  let intervalSwitch := minSwitch [intervalLR, intervalRL]
  { name := "gallop"
  , duration := intervalLR + intervalRL
  , actions :=
      [ .tone 0 .L LEFT_NOTE
      , .sprite intervalSwitch .Lj
      , .tone intervalLR .R RIGHT_NOTE
      , .sprite (intervalLR + intervalSwitch) .Rj ] }

/-- Generator `GallopPattern.build` from the earlier variant of the app (the unnamed
source file): `intervalRL = (safePeriod / 2) * as`,
`intervalLR = safePeriod * (1 - as / 2)`.  That variant's `StepSequence` has
no `name` field; the name is supplied here for record uniformity. -/
def GallopPatternProto.build (period : ℚ) (asymmetry : ℚ) : StepSequence :=
  let safePeriod := clampPeriod period
  let as := clampAsymmetry asymmetry
  let intervalRL := safePeriod / 2 * as
  let intervalLR := safePeriod * (1 - as / 2)
  let intervalSwitch := minSwitch [intervalLR, intervalRL]
  { name := "gallop"
  , duration := intervalLR + intervalRL
  , actions :=
      [ .tone 0 .L LEFT_NOTE
      , .sprite intervalSwitch .Lj
      , .tone intervalLR .R RIGHT_NOTE
      , .sprite (intervalLR + intervalSwitch) .Rj ] }

def offsetsOf (s : StepSequence) : List ℚ :=
  s.actions.map SequenceAction.offset

def toneOffsets (s : StepSequence) : List ℚ :=
  s.actions.filterMap fun a =>
    match a with
    | .tone o _ _ => some o
    | .sprite _ _ => none

def toneFeet (s : StepSequence) : List Foot :=
  s.actions.filterMap fun a =>
    match a with
    | .tone _ f _ => some f
    | .sprite _ _ => none

/-- Well-formedness of a generated sequence as stated by the spec: positive
duration, offsets sorted non-decreasing, every offset in `[0, duration)`. -/
def seqWellFormed (s : StepSequence) : Prop :=
  0 < s.duration
  ∧ List.Sorted (· ≤ ·) (offsetsOf s)
  ∧ ∀ o ∈ offsetsOf s, 0 ≤ o ∧ o < s.duration

/-- True on sprite actions only when they carry a transition sprite
(`Lj`/`Rj`); tone actions pass trivially. -/
def isTransitionSpriteAction : SequenceAction → Bool
  | .tone _ _ _ => true
  | .sprite _ .Lj => true
  | .sprite _ .Rj => true
  | .sprite _ _ => false

/-- Conversion used where `executeAction` passes `action.foot` (a `Foot`) to `setSprite`, i.e. the
plain step sprite of that foot. -/
def footSprite : Foot → DisplaySprite
  | .L => .L
  | .R => .R

/-- Kinds of callbacks the scheduler puts on the transport: the per-action
callback `(time) => executeAction(action, time)` and the cycle-boundary
callback `() => scheduleCycle(nextCycleStart)`. -/
inductive EventKind where
  | runAction (action : SequenceAction)
  | cycle (nextCycleStart : ℚ)
deriving DecidableEq

/-- One entry of the transport's event queue (`toneMock.ts`). -/
structure TransportEvent where
  id : ℕ
  time : ℚ
  kind : EventKind
deriving DecidableEq

/-- The fake transport of `toneMock.ts`: a logical clock plus an event queue;
`start`/`stop` are no-ops there. -/
structure Transport where
  seconds : ℚ
  position : ℚ
  nextId : ℕ
  events : List TransportEvent
deriving DecidableEq

/-- Operation `Transport.schedule` / `scheduleOnce`: push an event with id `nextId`,
increment `nextId`; the returned id is the pre-increment `nextId`. -/
def Transport.scheduleEvent (t : Transport) (k : EventKind) (time : ℚ) : Transport :=
  { t with
      events := t.events ++ [{ id := t.nextId, time := time, kind := k }]
    , nextId := t.nextId + 1 }

/-- Operation `Transport.clear(id)`: drop the event with that id. -/
def Transport.clearEvent (t : Transport) (id : ℕ) : Transport :=
  { t with events := t.events.filter fun e => e.id ≠ id }

/-- Operation `Transport.cancel()`: drop every event. -/
def Transport.cancelAll (t : Transport) : Transport :=
  { t with events := [] }

structure ToneEvent where
  note : String
  foot : Foot
  time : ℚ
deriving DecidableEq

/-- State of `StepScheduler` (App.tsx) plus the transport it drives and the
observable output logs (synth triggers and `setSprite` calls). -/
structure SchedulerState where
  transport : Transport
  nextCycleId : Option ℕ
  scheduledActionIds : List ℕ
  running : Bool
  currentSequence : Option StepSequence
  pendingSequence : Option StepSequence
  toneLog : List ToneEvent
  spriteLog : List (DisplaySprite × ℚ)
deriving DecidableEq

def initState : SchedulerState :=
  { transport := { seconds := 0, position := 0, nextId := 1, events := [] }
  , nextCycleId := none
  , scheduledActionIds := []
  , running := false
  , currentSequence := none
  , pendingSequence := none
  , toneLog := []
  , spriteLog := [] }

/-- Method `StepScheduler.executeAction`: a tone action triggers the synth and sets
the sprite to the tone's foot at the scheduled time; a sprite action sets the
stored sprite.  (In the mock, `Tone.Draw.schedule` runs its callback
immediately.) -/
def StepScheduler.executeAction (s : SchedulerState) (action : SequenceAction)
    (scheduledTime : ℚ) : SchedulerState :=
  match action with
  | .tone _ foot note =>
      { s with
          toneLog := s.toneLog ++ [{ note := note, foot := foot, time := scheduledTime }]
        , spriteLog := s.spriteLog ++ [(footSprite foot, scheduledTime)] }
  | .sprite _ sp =>
      { s with spriteLog := s.spriteLog ++ [(sp, scheduledTime)] }

/-- The `forEach` body of `StepScheduler.scheduleActions`: schedule each
action at `cycleStart + action.offset` and remember the event id. -/
def StepScheduler.scheduleActionsList (s : SchedulerState)
    (actions : List SequenceAction) (cycleStart : ℚ) : SchedulerState :=
  match actions with
  | [] => s
  | action :: rest =>
      let eventId := s.transport.nextId
      StepScheduler.scheduleActionsList
        { s with
            transport := s.transport.scheduleEvent (.runAction action)
              (cycleStart + action.offset)
          , scheduledActionIds := s.scheduledActionIds ++ [eventId] }
        rest cycleStart

def StepScheduler.scheduleActions (s : SchedulerState) (sequence : StepSequence)
    (cycleStart : ℚ) : SchedulerState :=
  StepScheduler.scheduleActionsList s sequence.actions cycleStart

/-- Method `StepScheduler.scheduleCycle`: promote a pending sequence if any (the only
place a pattern switch is committed), materialize the current cycle, and
schedule the next boundary callback `SCHEDULER_LOOKAHEAD` before the next
cycle start. -/
def StepScheduler.scheduleCycle (s : SchedulerState) (cycleStartTime : ℚ) : SchedulerState :=
  if s.running then
    let s1 :=
      if s.pendingSequence.isSome then
        { s with currentSequence := s.pendingSequence, pendingSequence := none }
      else s
    match s1.currentSequence with
    | none => s1
    | some sequence =>
        let s2 := StepScheduler.scheduleActions s1 sequence cycleStartTime
        let nextCycleStart := cycleStartTime + sequence.duration
        let scheduleNextPlanningAt := max 0 (nextCycleStart - SCHEDULER_LOOKAHEAD)
        let cid := s2.transport.nextId
        { s2 with
            transport := s2.transport.scheduleEvent (.cycle nextCycleStart)
              scheduleNextPlanningAt
          , nextCycleId := some cid }
  else s

def StepScheduler.clearScheduledActions (s : SchedulerState) : SchedulerState :=
  { s with
      transport := s.scheduledActionIds.foldl (fun tr id => tr.clearEvent id) s.transport
    , scheduledActionIds := [] }

/-- Method `StepScheduler.resetTransport`: clear the boundary callback, clear all
scheduled action callbacks, stop and cancel the transport (stop is a no-op in
the mock), and rewind `position` to 0. -/
def StepScheduler.resetTransport (s : SchedulerState) : SchedulerState :=
  let sa :=
    match s.nextCycleId with
    | some id => { s with transport := s.transport.clearEvent id, nextCycleId := none }
    | none => s
  let sb := StepScheduler.clearScheduledActions sa
  let sc := { sb with transport := sb.transport.cancelAll }
  { sc with transport := { sc.transport with position := 0 } }

/-- Method `StepScheduler.startFresh`: reset everything, install the sequence, mark
running, and schedule the first cycle at transport time 0. -/
def StepScheduler.startFresh (s : SchedulerState) (sequence : StepSequence) : SchedulerState :=
  let sa := StepScheduler.resetTransport s
  let sb := { sa with
      currentSequence := some sequence
    , running := true
    , pendingSequence := none }
  StepScheduler.scheduleCycle sb 0

/-- Method `StepScheduler.applySequence`: start fresh when stopped; otherwise queue
the sequence as pending without touching the transport. -/
def StepScheduler.applySequence (s : SchedulerState) (sequence : StepSequence) : SchedulerState :=
  if s.running then { s with pendingSequence := some sequence }
  else StepScheduler.startFresh s sequence

/-- Method `StepScheduler.stop`. -/
def StepScheduler.stop (s : SchedulerState) : SchedulerState :=
  let sa := StepScheduler.resetTransport s
  { sa with running := false, pendingSequence := none, currentSequence := none }

/-- The next event the mock transport runs when advancing to `target`: the
first (insertion order breaks ties, matching the stable sort) event with
minimal time among those with `time ≤ target`. -/
def pickNext (events : List TransportEvent) (target : ℚ) : Option TransportEvent :=
  (events.filter fun e => decide (e.time ≤ target)).foldl
    (fun acc e =>
      match acc with
      | none => some e
      | some b => if e.time < b.time then some e else some b)
    none

/-- Running one due event: set the clock to its time, remove it from the
queue, then dispatch its callback. -/
def runEvent (s : SchedulerState) (e : TransportEvent) : SchedulerState :=
  let s1 := { s with
      transport := { s.transport with
          seconds := e.time
        , events := s.transport.events.filter fun x => x.id ≠ e.id } }
  match e.kind with
  | .runAction action => StepScheduler.executeAction s1 action e.time
  | .cycle nextCycleStart => StepScheduler.scheduleCycle s1 nextCycleStart

/-- Loop of `FakeTransport.advanceTo`, fuelled: repeatedly run the earliest due event
(including events scheduled along the way), then land the clock on `target`. -/
def advanceLoop : ℕ → SchedulerState → ℚ → SchedulerState
  | 0, s, _ => s
  | fuel + 1, s, target =>
      match pickNext s.transport.events target with
      | none => { s with transport := { s.transport with seconds := target } }
      | some e => advanceLoop fuel (runEvent s e) target

def eventSig (e : TransportEvent) : ℚ × EventKind :=
  (e.time, e.kind)

/-- The schedule with event ids forgotten: what is due to run, and when. -/
def scheduleSig (s : SchedulerState) : List (ℚ × EventKind) :=
  s.transport.events.map eventSig

/-- Scheduler states reachable from the initial state through the public
operations and the passage of transport time. -/
inductive Reachable : SchedulerState → Prop where
  | init : Reachable initState
  | step_apply (s : SchedulerState) (sequence : StepSequence) :
      Reachable s → Reachable (StepScheduler.applySequence s sequence)
  | step_stop (s : SchedulerState) :
      Reachable s → Reachable (StepScheduler.stop s)
  | step_advance (s : SchedulerState) (fuel : ℕ) (target : ℚ) :
      Reachable s → Reachable (advanceLoop fuel s target)

def walkSeq : StepSequence := WalkJogPattern.build 1 0

def gallopSeq : StepSequence := GallopPattern.build 1 (3 / 5)

/-- Deferred-swap scenario of the spec: start Walk/Jog (duration 1), advance
to transport time 0.3, apply the Gallop sequence, advance to time 2. -/
def swapRun : SchedulerState :=
  advanceLoop 64
    (StepScheduler.applySequence
      (advanceLoop 64 (StepScheduler.applySequence initState walkSeq) (3 / 10))
      gallopSeq)
    2

/-- The same playback with no swap applied. -/
def noSwapRun : SchedulerState :=
  advanceLoop 64 (StepScheduler.applySequence initState walkSeq) 2

/-- Late-swap scenario: the same, but the Gallop sequence is applied at
transport time 0.95, inside the lookahead window of the 1.0 boundary. -/
def lateSwapRun : SchedulerState :=
  advanceLoop 64
    (StepScheduler.applySequence
      (advanceLoop 64 (StepScheduler.applySequence initState walkSeq) (19 / 20))
      gallopSeq)
    2

/-- A malformed sequence: non-monotonic offsets and non-positive duration. -/
def badSeq : StepSequence :=
  { name := "bad", duration := 0
  , actions := [.tone 1 .R "E5", .tone 0 .L "C5"] }

/-- A running scheduler with a queued (pending) gallop sequence. -/
def queuedState : SchedulerState :=
  StepScheduler.applySequence (StepScheduler.applySequence initState walkSeq) gallopSeq

theorem clampPeriod_mem (p : ℚ) : 1 / 2 ≤ clampPeriod p ∧ clampPeriod p ≤ 2 := by
  unfold clampPeriod PERIOD_MIN PERIOD_MAX
  exact ⟨le_min (by norm_num) (le_max_left _ _), min_le_left _ _⟩

theorem clampAsymmetry_mem (a : ℚ) :
    1 / 1000 ≤ clampAsymmetry a ∧ clampAsymmetry a ≤ 999 / 1000 := by
  unfold clampAsymmetry ASYMMETRY_EPSILON
  exact ⟨le_min (by norm_num) (le_max_left _ _),
    le_trans (min_le_left _ _) (by norm_num)⟩

theorem minSwitch_pair (x y : ℚ) :
    minSwitch [x, y] = min (min (1 / 10) (x / 3)) (y / 3) := by
  simp [minSwitch, INTERVAL_SWITCH_CAP]

theorem minSwitch_quad (x y z w : ℚ) :
    minSwitch [x, y, z, w]
      = min (min (min (min (1 / 10) (x / 3)) (y / 3)) (z / 3)) (w / 3) := by
  simp [minSwitch, INTERVAL_SWITCH_CAP]

theorem minSwitch_pair_pos {x y : ℚ} (hx : 0 < x) (hy : 0 < y) :
    0 < minSwitch [x, y] := by
  rw [minSwitch_pair]
  exact lt_min (lt_min (by norm_num) (by positivity)) (by positivity)

theorem minSwitch_pair_le_left (x y : ℚ) : minSwitch [x, y] ≤ x / 3 := by
  rw [minSwitch_pair]
  exact le_trans (min_le_left _ _) (min_le_right _ _)

theorem minSwitch_pair_le_right (x y : ℚ) : minSwitch [x, y] ≤ y / 3 := by
  rw [minSwitch_pair]
  exact min_le_right _ _

theorem minSwitch_quad_pos {x y z w : ℚ} (hx : 0 < x) (hy : 0 < y) (hz : 0 < z)
    (hw : 0 < w) : 0 < minSwitch [x, y, z, w] := by
  rw [minSwitch_quad]
  exact lt_min (lt_min (lt_min (lt_min (by norm_num) (by positivity)) (by positivity))
    (by positivity)) (by positivity)

theorem minSwitch_quad_le₂ (x y z w : ℚ) : minSwitch [x, y, z, w] ≤ y / 3 := by
  rw [minSwitch_quad]
  exact le_trans (min_le_left _ _) (le_trans (min_le_left _ _) (min_le_right _ _))

theorem minSwitch_quad_le₄ (x y z w : ℚ) : minSwitch [x, y, z, w] ≤ w / 3 := by
  rw [minSwitch_quad]
  exact min_le_right _ _
theorem walk_wf (p a : ℚ) : seqWellFormed (WalkJogPattern.build p a) := by
  obtain ⟨hp1, hp2⟩ := clampPeriod_mem p
  have hI : 0 < clampPeriod p / 2 := by linarith
  have hsw0 : 0 < minSwitch [clampPeriod p / 2, clampPeriod p / 2] :=
    minSwitch_pair_pos hI hI
  have hswle : minSwitch [clampPeriod p / 2, clampPeriod p / 2] ≤ clampPeriod p / 2 / 3 :=
    minSwitch_pair_le_left _ _
  refine ⟨?_, ?_, ?_⟩
  · simp only [WalkJogPattern.build]
    linarith
  · simp only [seqWellFormed, WalkJogPattern.build, offsetsOf, List.map_cons, List.map_nil,
      SequenceAction.offset, List.sorted_cons, List.mem_cons, List.not_mem_nil, or_false,
      forall_eq_or_imp, forall_eq, false_implies, and_true, List.sorted_nil,
      List.mem_singleton, implies_true]
    refine ⟨⟨?_, ?_, ?_⟩, ⟨?_, ?_⟩, ?_⟩ <;> linarith
  · intro o ho
    simp only [WalkJogPattern.build, offsetsOf, List.map_cons, List.map_nil,
      SequenceAction.offset, List.mem_cons, List.not_mem_nil, or_false] at ho
    simp only [WalkJogPattern.build]
    rcases ho with rfl | rfl | rfl | rfl <;> exact ⟨by linarith, by linarith⟩

theorem gallop_wf (p a : ℚ) : seqWellFormed (GallopPattern.build p a) := by
  obtain ⟨hp1, hp2⟩ := clampPeriod_mem p
  obtain ⟨ha1, ha2⟩ := clampAsymmetry_mem a
  have hLR : 0 < clampPeriod p * (1 - clampAsymmetry a) :=
    mul_pos (by linarith) (by linarith)
  have hRL : 0 < clampPeriod p * clampAsymmetry a :=
    mul_pos (by linarith) (by linarith)
  have hsw0 : 0 < minSwitch [clampPeriod p * (1 - clampAsymmetry a),
      clampPeriod p * clampAsymmetry a] := minSwitch_pair_pos hLR hRL
  have hswle1 : minSwitch [clampPeriod p * (1 - clampAsymmetry a),
      clampPeriod p * clampAsymmetry a] ≤ clampPeriod p * (1 - clampAsymmetry a) / 3 :=
    minSwitch_pair_le_left _ _
  have hswle2 : minSwitch [clampPeriod p * (1 - clampAsymmetry a),
      clampPeriod p * clampAsymmetry a] ≤ clampPeriod p * clampAsymmetry a / 3 :=
    minSwitch_pair_le_right _ _
  refine ⟨?_, ?_, ?_⟩
  · simp only [GallopPattern.build]
    linarith
  · simp only [seqWellFormed, GallopPattern.build, offsetsOf, List.map_cons, List.map_nil,
      SequenceAction.offset, List.sorted_cons, List.mem_cons, List.not_mem_nil, or_false,
      forall_eq_or_imp, forall_eq, false_implies, and_true, List.sorted_nil,
      List.mem_singleton, implies_true]
    refine ⟨⟨?_, ?_, ?_⟩, ⟨?_, ?_⟩, ?_⟩ <;> linarith
  · intro o ho
    simp only [GallopPattern.build, offsetsOf, List.map_cons, List.map_nil,
      SequenceAction.offset, List.mem_cons, List.not_mem_nil, or_false] at ho
    simp only [GallopPattern.build]
    rcases ho with rfl | rfl | rfl | rfl <;> exact ⟨by linarith, by linarith⟩

theorem skip_wf (p a : ℚ) : seqWellFormed (SkipPattern.build p a) := by
  obtain ⟨hp1, hp2⟩ := clampPeriod_mem p
  obtain ⟨ha1, ha2⟩ := clampAsymmetry_mem a
  have hRR : 0 < clampPeriod p / 2 * clampAsymmetry a :=
    mul_pos (by linarith) (by linarith)
  have hRL : 0 < clampPeriod p * (1 - clampAsymmetry a / 2) :=
    mul_pos (by linarith) (by linarith)
  have hsw0 : 0 < minSwitch [clampPeriod p / 2 * clampAsymmetry a,
      clampPeriod p / 2 * clampAsymmetry a,
      clampPeriod p * (1 - clampAsymmetry a / 2),
      clampPeriod p * (1 - clampAsymmetry a / 2)] :=
    minSwitch_quad_pos hRR hRR hRL hRL
  have hswle1 : minSwitch [clampPeriod p / 2 * clampAsymmetry a,
      clampPeriod p / 2 * clampAsymmetry a,
      clampPeriod p * (1 - clampAsymmetry a / 2),
      clampPeriod p * (1 - clampAsymmetry a / 2)]
        ≤ clampPeriod p / 2 * clampAsymmetry a / 3 := minSwitch_quad_le₂ _ _ _ _
  have hswle2 : minSwitch [clampPeriod p / 2 * clampAsymmetry a,
      clampPeriod p / 2 * clampAsymmetry a,
      clampPeriod p * (1 - clampAsymmetry a / 2),
      clampPeriod p * (1 - clampAsymmetry a / 2)]
        ≤ clampPeriod p * (1 - clampAsymmetry a / 2) / 3 := minSwitch_quad_le₄ _ _ _ _
  refine ⟨?_, ?_, ?_⟩
  · simp only [SkipPattern.build]
    linarith
  · simp only [seqWellFormed, SkipPattern.build, offsetsOf, List.map_cons, List.map_nil,
      SequenceAction.offset, List.sorted_cons, List.mem_cons, List.not_mem_nil, or_false,
      forall_eq_or_imp, forall_eq, false_implies, and_true, List.sorted_nil,
      List.mem_singleton, implies_true]
    repeat' apply And.intro
    all_goals linarith
  · intro o ho
    simp only [SkipPattern.build, offsetsOf, List.map_cons, List.map_nil,
      SequenceAction.offset, List.mem_cons, List.not_mem_nil, or_false] at ho
    simp only [SkipPattern.build]
    rcases ho with rfl | rfl | rfl | rfl | rfl | rfl | rfl | rfl <;>
      exact ⟨by linarith, by linarith⟩

/-- C2: for every period and asymmetry input (all inputs are clamped into the
valid range inside the generators), each of the three generators returns a
sequence with strictly positive duration whose action offsets are
non-negative, sorted non-decreasing, and strictly below the duration. -/
theorem generators_produce_well_formed_sequences (p a : ℚ) :
    seqWellFormed (WalkJogPattern.build p a)
    ∧ seqWellFormed (SkipPattern.build p a)
    ∧ seqWellFormed (GallopPattern.build p a) :=
  ⟨walk_wf p a, skip_wf p a, gallop_wf p a⟩

/-- Witness for C2: the bound part instantiated at period 1, asymmetry 1/2,
offset 0 of the Walk/Jog sequence. -/
theorem generators_produce_well_formed_sequences_witness :
    0 ≤ (0 : ℚ) ∧ (0 : ℚ) < (WalkJogPattern.build 1 (1 / 2)).duration :=
  (generators_produce_well_formed_sequences 1 (1 / 2)).1.2.2 0
    (by with_unfolding_all decide)

/-- C7: `WalkJogPattern.build` never reads its asymmetry argument, so its
output is the same for any two asymmetry values. -/
theorem walkJog_independent_of_asymmetry (p a1 a2 : ℚ) :
    WalkJogPattern.build p a1 = WalkJogPattern.build p a2 := rfl

/-- C9: for every input, Walk/Jog and Gallop sequences last exactly the
clamped period (the asymmetry terms cancel), and Skip lasts exactly twice the
clamped period. -/
theorem generator_durations_determined_by_period (p a : ℚ) :
    (WalkJogPattern.build p a).duration = clampPeriod p
    ∧ (GallopPattern.build p a).duration = clampPeriod p
    ∧ (SkipPattern.build p a).duration = 2 * clampPeriod p := by
  refine ⟨?_, ?_, ?_⟩ <;>
    simp only [WalkJogPattern.build, GallopPattern.build, SkipPattern.build] <;> ring

/-- C3: at period 1.0 and asymmetry 0.6 the current `GallopPattern.build`
places its second tone at offset 0.4 = period·(1−as), not at the 0.7 =
period·(1−as/2) demanded by the claim, by the repository's own unit test
(`App.test.tsx` expects tones `[0, 0.7, 1, 1.7]`), and by the earlier variant
of the generator, which does produce 0.7. -/
theorem gallop_current_code_diverges_from_test_expectation :
    toneOffsets (GallopPattern.build 1 (3 / 5)) = [0, 2 / 5]
    ∧ toneOffsets (GallopPattern.build 1 (3 / 5)) ≠ [0, 7 / 10]
    ∧ toneFeet (GallopPattern.build 1 (3 / 5)) = [Foot.L, Foot.R]
    ∧ toneOffsets (GallopPatternProto.build 1 (3 / 5)) = [0, 7 / 10] := by
  with_unfolding_all decide

/-- C10: every sprite action emitted by the three generators carries a
transition sprite (`Lj`/`Rj`), never a plain step sprite; the plain step
sprites arise only from executing a tone action, which records the sprite of
the tone's foot at the scheduled time. -/
theorem sprite_actions_carry_transition_sprites (p a : ℚ) :
    ((WalkJogPattern.build p a).actions.all isTransitionSpriteAction = true
      ∧ (SkipPattern.build p a).actions.all isTransitionSpriteAction = true
      ∧ (GallopPattern.build p a).actions.all isTransitionSpriteAction = true)
    ∧ (∀ (s : SchedulerState) (off : ℚ) (foot : Foot) (note : String) (t : ℚ),
        (StepScheduler.executeAction s (.tone off foot note) t).spriteLog
          = s.spriteLog ++ [(footSprite foot, t)])
    ∧ (∀ (s : SchedulerState) (off : ℚ) (sp : DisplaySprite) (t : ℚ),
        (StepScheduler.executeAction s (.sprite off sp) t).spriteLog
          = s.spriteLog ++ [(sp, t)])
    ∧ footSprite Foot.L = DisplaySprite.L ∧ footSprite Foot.R = DisplaySprite.R := by
  refine ⟨⟨?_, ?_, ?_⟩, ?_, ?_, rfl, rfl⟩
  · simp [WalkJogPattern.build, isTransitionSpriteAction]
  · simp [SkipPattern.build, isTransitionSpriteAction]
  · simp [GallopPattern.build, isTransitionSpriteAction]
  · intro s off foot note t
    simp [StepScheduler.executeAction]
  · intro s off sp t
    simp [StepScheduler.executeAction]

theorem scheduleActionsList_sig (actions : List SequenceAction) :
    ∀ (s : SchedulerState) (c : ℚ),
      scheduleSig (StepScheduler.scheduleActionsList s actions c)
        = scheduleSig s ++ actions.map fun a => (c + a.offset, EventKind.runAction a) := by
  induction actions with
  | nil => intro s c; simp [StepScheduler.scheduleActionsList]
  | cons a rest ih =>
      intro s c
      rw [StepScheduler.scheduleActionsList, ih]
      simp [scheduleSig, Transport.scheduleEvent, eventSig]

theorem scheduleActionsList_fields (actions : List SequenceAction) :
    ∀ (s : SchedulerState) (c : ℚ),
      (StepScheduler.scheduleActionsList s actions c).running = s.running
      ∧ (StepScheduler.scheduleActionsList s actions c).currentSequence = s.currentSequence
      ∧ (StepScheduler.scheduleActionsList s actions c).pendingSequence = s.pendingSequence
      ∧ (StepScheduler.scheduleActionsList s actions c).toneLog = s.toneLog
      ∧ (StepScheduler.scheduleActionsList s actions c).spriteLog = s.spriteLog := by
  induction actions with
  | nil => intro s c; simp [StepScheduler.scheduleActionsList]
  | cons a rest ih =>
      intro s c
      simpa [StepScheduler.scheduleActionsList] using ih _ c

theorem clearEvent_seconds (t : Transport) (id : ℕ) :
    (t.clearEvent id).seconds = t.seconds := rfl

theorem clearEvent_position (t : Transport) (id : ℕ) :
    (t.clearEvent id).position = t.position := rfl

theorem clearEvent_nextId (t : Transport) (id : ℕ) :
    (t.clearEvent id).nextId = t.nextId := rfl

theorem foldl_clearEvent_scalars (ids : List ℕ) :
    ∀ t : Transport,
      (ids.foldl (fun tr id => tr.clearEvent id) t).seconds = t.seconds
      ∧ (ids.foldl (fun tr id => tr.clearEvent id) t).position = t.position
      ∧ (ids.foldl (fun tr id => tr.clearEvent id) t).nextId = t.nextId := by
  induction ids with
  | nil => intro t; simp
  | cons i rest ih =>
      intro t
      simpa [clearEvent_seconds, clearEvent_position, clearEvent_nextId] using ih _

theorem resetTransport_eq (s : SchedulerState) :
    StepScheduler.resetTransport s
      = { transport := { seconds := s.transport.seconds, position := 0,
                         nextId := s.transport.nextId, events := [] }
        , nextCycleId := none
        , scheduledActionIds := []
        , running := s.running
        , currentSequence := s.currentSequence
        , pendingSequence := s.pendingSequence
        , toneLog := s.toneLog
        , spriteLog := s.spriteLog } := by
  obtain ⟨⟨sec, pos, nid, evs⟩, nci, said, run, cur, pend, tl, sl⟩ := s
  cases nci <;>
    simp [StepScheduler.resetTransport, StepScheduler.clearScheduledActions,
      Transport.cancelAll, foldl_clearEvent_scalars, clearEvent_seconds,
      clearEvent_position, clearEvent_nextId]

theorem scheduleCycle_not_running {s : SchedulerState} (c : ℚ)
    (h : s.running = false) : StepScheduler.scheduleCycle s c = s := by
  simp [StepScheduler.scheduleCycle, h]

theorem scheduleCycle_running (s : SchedulerState) (c : ℚ) :
    (StepScheduler.scheduleCycle s c).running = s.running := by
  obtain ⟨tr, nci, said, run, cur, pend, tl, sl⟩ := s
  cases run <;> cases pend <;> cases cur <;>
    simp [StepScheduler.scheduleCycle, StepScheduler.scheduleActions,
      scheduleActionsList_fields]

theorem scheduleCycle_promote_fields {s : SchedulerState} (c : ℚ) (p : StepSequence)
    (hrun : s.running = true) (hpend : s.pendingSequence = some p) :
    (StepScheduler.scheduleCycle s c).currentSequence = some p
    ∧ (StepScheduler.scheduleCycle s c).pendingSequence = none := by
  obtain ⟨tr, nci, said, run, cur, pend, tl, sl⟩ := s
  cases hrun
  cases hpend
  simp [StepScheduler.scheduleCycle, StepScheduler.scheduleActions,
    scheduleActionsList_fields]

theorem scheduleCycle_nopend_fields {s : SchedulerState} (c : ℚ)
    (hpend : s.pendingSequence = none) :
    (StepScheduler.scheduleCycle s c).currentSequence = s.currentSequence
    ∧ (StepScheduler.scheduleCycle s c).pendingSequence = none := by
  obtain ⟨tr, nci, said, run, cur, pend, tl, sl⟩ := s
  cases hpend
  cases run <;> cases cur <;>
    simp [StepScheduler.scheduleCycle, StepScheduler.scheduleActions,
      scheduleActionsList_fields]

theorem executeAction_fields (s : SchedulerState) (a : SequenceAction) (t : ℚ) :
    (StepScheduler.executeAction s a t).running = s.running
    ∧ (StepScheduler.executeAction s a t).currentSequence = s.currentSequence
    ∧ (StepScheduler.executeAction s a t).pendingSequence = s.pendingSequence
    ∧ (StepScheduler.executeAction s a t).transport = s.transport := by
  cases a <;> simp [StepScheduler.executeAction]

theorem stop_eq (s : SchedulerState) :
    StepScheduler.stop s
      = { transport := { seconds := s.transport.seconds, position := 0,
                         nextId := s.transport.nextId, events := [] }
        , nextCycleId := none
        , scheduledActionIds := []
        , running := false
        , currentSequence := none
        , pendingSequence := none
        , toneLog := s.toneLog
        , spriteLog := s.spriteLog } := by
  rw [StepScheduler.stop, resetTransport_eq]

theorem startFresh_fields (s : SchedulerState) (seq : StepSequence) :
    (StepScheduler.startFresh s seq).running = true
    ∧ (StepScheduler.startFresh s seq).currentSequence = some seq
    ∧ (StepScheduler.startFresh s seq).pendingSequence = none
    ∧ (StepScheduler.startFresh s seq).toneLog = s.toneLog
    ∧ (StepScheduler.startFresh s seq).spriteLog = s.spriteLog := by
  rw [StepScheduler.startFresh, resetTransport_eq]
  simp [StepScheduler.scheduleCycle, StepScheduler.scheduleActions,
    scheduleActionsList_fields]

theorem startFresh_sig (s : SchedulerState) (seq : StepSequence) :
    scheduleSig (StepScheduler.startFresh s seq)
      = (seq.actions.map fun a => ((0 : ℚ) + a.offset, EventKind.runAction a))
        ++ [(max 0 (0 + seq.duration - SCHEDULER_LOOKAHEAD),
             EventKind.cycle (0 + seq.duration))] := by
  rw [StepScheduler.startFresh, resetTransport_eq]
  simp only [StepScheduler.scheduleCycle, StepScheduler.scheduleActions, Option.isSome_none,
    Bool.false_eq_true, if_true, if_false, Bool.ite_eq_true_distrib, scheduleSig,
    Transport.scheduleEvent, List.map_append]
  rw [show ∀ X : SchedulerState, List.map eventSig X.transport.events = scheduleSig X
        from fun X => rfl,
      scheduleActionsList_sig]
  simp [scheduleSig, eventSig]

theorem runEvent_inv (s : SchedulerState) (e : TransportEvent)
    (h : s.pendingSequence = none ∨ s.running = true) :
    (runEvent s e).pendingSequence = none ∨ (runEvent s e).running = true := by
  obtain ⟨tr, nci, said, run, cur, pend, tl, sl⟩ := s
  obtain ⟨eid, etime, ekind⟩ := e
  cases ekind with
  | runAction a =>
      cases a <;>
        simpa [runEvent, StepScheduler.executeAction] using h
  | cycle c =>
      cases run with
      | false => simpa [runEvent, StepScheduler.scheduleCycle] using h
      | true =>
          right
          simp only [runEvent]
          rw [scheduleCycle_running]

theorem advanceLoop_inv (fuel : ℕ) :
    ∀ (s : SchedulerState) (target : ℚ),
      (s.pendingSequence = none ∨ s.running = true) →
      ((advanceLoop fuel s target).pendingSequence = none
        ∨ (advanceLoop fuel s target).running = true) := by
  induction fuel with
  | zero => intro s target h; simpa [advanceLoop] using h
  | succ n ih =>
      intro s target h
      rw [advanceLoop]
      cases hp : pickNext s.transport.events target with
      | none => simpa using h
      | some e => exact ih _ _ (runEvent_inv s e h)

theorem applySequence_inv (s : SchedulerState) (seq : StepSequence) :
    (StepScheduler.applySequence s seq).pendingSequence = none
    ∨ (StepScheduler.applySequence s seq).running = true := by
  unfold StepScheduler.applySequence
  cases hr : s.running with
  | false =>
      right
      simp only [Bool.false_eq_true, if_false]
      exact (startFresh_fields s seq).1
  | true => right; simp [hr]

theorem reachable_inv (s : SchedulerState) (h : Reachable s) :
    s.pendingSequence = none ∨ s.running = true := by
  induction h with
  | init => left; rfl
  | step_apply s' seq _ _ => exact applySequence_inv s' seq
  | step_stop s' _ _ => left; simp [stop_eq]
  | step_advance s' fuel target _ ih => exact advanceLoop_inv fuel s' target ih

theorem advanceLoop_no_events (fuel : ℕ) (s : SchedulerState) (target : ℚ)
    (h : s.transport.events = []) :
    (advanceLoop fuel s target).toneLog = s.toneLog
    ∧ (advanceLoop fuel s target).spriteLog = s.spriteLog
    ∧ (advanceLoop fuel s target).transport.events = [] := by
  cases fuel with
  | zero => simp [advanceLoop, h]
  | succ n => simp [advanceLoop, pickNext, h]

/-- C5: after `stop()` the scheduler is not running, both sequence slots are
cleared, no scheduled callback remains on the transport, advancing the clock
afterwards (by any amount) fires no tone or sprite callback, and `stop()` is
idempotent / a no-op on an already-stopped scheduler. -/
theorem stop_clears_state_and_schedule (s : SchedulerState) :
    (StepScheduler.stop s).running = false
    ∧ (StepScheduler.stop s).currentSequence = none
    ∧ (StepScheduler.stop s).pendingSequence = none
    ∧ (StepScheduler.stop s).transport.events = []
    ∧ StepScheduler.stop (StepScheduler.stop s) = StepScheduler.stop s
    ∧ (∀ (fuel : ℕ) (target : ℚ),
        (advanceLoop fuel (StepScheduler.stop s) target).toneLog
            = (StepScheduler.stop s).toneLog
        ∧ (advanceLoop fuel (StepScheduler.stop s) target).spriteLog
            = (StepScheduler.stop s).spriteLog)
    ∧ StepScheduler.stop initState = initState := by
  refine ⟨?_, ?_, ?_, ?_, ?_, ?_, ?_⟩
  · rw [stop_eq]
  · rw [stop_eq]
  · rw [stop_eq]
  · rw [stop_eq]
  · rw [stop_eq s, stop_eq]
  · intro fuel target
    exact ⟨(advanceLoop_no_events fuel _ target (by rw [stop_eq])).1,
           (advanceLoop_no_events fuel _ target (by rw [stop_eq])).2.1⟩
  · rw [stop_eq]
    rfl

/-- C8: starting twice in a row with the same sequence (the second start while
the first is running) leaves exactly the same scheduled callbacks, at the same
times and with the same payloads (event ids aside), the same scheduler flags,
and the same fired-tone log as starting once: `startFresh` first fully resets
the transport. -/
theorem startFresh_twice_equals_once (s : SchedulerState) (seq : StepSequence) :
    scheduleSig (StepScheduler.startFresh (StepScheduler.startFresh s seq) seq)
        = scheduleSig (StepScheduler.startFresh s seq)
    ∧ (StepScheduler.startFresh (StepScheduler.startFresh s seq) seq).running
        = (StepScheduler.startFresh s seq).running
    ∧ (StepScheduler.startFresh (StepScheduler.startFresh s seq) seq).currentSequence
        = (StepScheduler.startFresh s seq).currentSequence
    ∧ (StepScheduler.startFresh (StepScheduler.startFresh s seq) seq).pendingSequence
        = (StepScheduler.startFresh s seq).pendingSequence
    ∧ (StepScheduler.startFresh (StepScheduler.startFresh s seq) seq).toneLog
        = (StepScheduler.startFresh s seq).toneLog := by
  refine ⟨?_, ?_, ?_, ?_, ?_⟩
  · rw [startFresh_sig, startFresh_sig]
  · rw [(startFresh_fields _ seq).1, (startFresh_fields s seq).1]
  · rw [(startFresh_fields _ seq).2.1, (startFresh_fields s seq).2.1]
  · rw [(startFresh_fields _ seq).2.2.1, (startFresh_fields s seq).2.2.1]
  · exact (startFresh_fields _ seq).2.2.2.1

/-- C6 (amended): the scheduler performs no validation at all: for every
`StepSequence` — including malformed ones with non-monotonic offsets or
non-positive duration — invoking the scheduler materializes the sequence's
actions unchanged onto the transport; no assertion fires and no error path
exists. -/
theorem applySequence_performs_no_validation (seq : StepSequence) :
    scheduleSig (StepScheduler.applySequence initState seq)
      = (seq.actions.map fun a => ((0 : ℚ) + a.offset, EventKind.runAction a))
        ++ [(max 0 (0 + seq.duration - SCHEDULER_LOOKAHEAD),
             EventKind.cycle (0 + seq.duration))] := by
  rw [show StepScheduler.applySequence initState seq
        = StepScheduler.startFresh initState seq from rfl, startFresh_sig]

/-- C6 counterexample: `badSeq` is malformed (duration 0 and offsets 1, 0 out
of order), yet invoking the scheduler with it changes the transport schedule
and materializes the malformed tone at offset 1 — it is silently scheduled,
not rejected by an assertion as the claim states. -/
theorem malformed_sequence_is_silently_scheduled :
    badSeq.duration ≤ 0
    ∧ ¬ List.Sorted (· ≤ ·) (offsetsOf badSeq)
    ∧ scheduleSig (StepScheduler.applySequence initState badSeq) ≠ scheduleSig initState
    ∧ ((1 : ℚ), EventKind.runAction (SequenceAction.tone 1 Foot.R "E5"))
        ∈ scheduleSig (StepScheduler.applySequence initState badSeq) := by
  with_unfolding_all decide

/-- C4: in every reachable state `pendingSequence` is non-null only while
`running` is true; a cycle-boundary evaluation (`scheduleCycle`) with a
pending sequence promotes it to `currentSequence` and clears the pending slot,
so a second boundary cannot re-promote it; and no other operation commits a
switch: `scheduleCycle` without a pending sequence, `applySequence` while
running, and action execution all leave `currentSequence` unchanged. -/
theorem pendingSequence_lifecycle :
    (∀ s : SchedulerState, Reachable s → s.pendingSequence ≠ none → s.running = true)
    ∧ (∀ (s : SchedulerState) (c : ℚ) (p : StepSequence),
        s.running = true → s.pendingSequence = some p →
          (StepScheduler.scheduleCycle s c).currentSequence = some p
          ∧ (StepScheduler.scheduleCycle s c).pendingSequence = none)
    ∧ (∀ (s : SchedulerState) (c : ℚ), s.pendingSequence = none →
          (StepScheduler.scheduleCycle s c).currentSequence = s.currentSequence
          ∧ (StepScheduler.scheduleCycle s c).pendingSequence = none)
    ∧ (∀ (s : SchedulerState) (seq : StepSequence), s.running = true →
          (StepScheduler.applySequence s seq).currentSequence = s.currentSequence
          ∧ (StepScheduler.applySequence s seq).pendingSequence = some seq)
    ∧ (∀ (s : SchedulerState) (a : SequenceAction) (t : ℚ),
          (StepScheduler.executeAction s a t).currentSequence = s.currentSequence
          ∧ (StepScheduler.executeAction s a t).pendingSequence = s.pendingSequence)
    ∧ (∀ s : SchedulerState, (StepScheduler.stop s).pendingSequence = none) := by
  refine ⟨?_, ?_, ?_, ?_, ?_, ?_⟩
  · intro s hr hpend
    rcases reachable_inv s hr with h | h
    · exact absurd h hpend
    · exact h
  · intro s c p hrun hpend
    exact scheduleCycle_promote_fields c p hrun hpend
  · intro s c hpend
    exact scheduleCycle_nopend_fields c hpend
  · intro s seq hrun
    constructor <;> simp [StepScheduler.applySequence, hrun]
  · intro s a t
    exact ⟨(executeAction_fields s a t).2.1, (executeAction_fields s a t).2.2.1⟩
  · intro s
    rw [stop_eq]

/-- Witness for C4: a concrete reachable running state with a queued gallop
sequence; the invariant and the boundary promotion evaluated there. -/
theorem pendingSequence_lifecycle_witness :
    queuedState.running = true
    ∧ (StepScheduler.scheduleCycle queuedState 1).currentSequence = some gallopSeq
    ∧ (StepScheduler.scheduleCycle queuedState 1).pendingSequence = none :=
  ⟨pendingSequence_lifecycle.1 queuedState
      (Reachable.step_apply _ gallopSeq (Reachable.step_apply _ walkSeq Reachable.init))
      (by with_unfolding_all decide),
   (pendingSequence_lifecycle.2.1 queuedState 1 gallopSeq (by with_unfolding_all decide)
      (by with_unfolding_all decide)).1,
   (pendingSequence_lifecycle.2.1 queuedState 1 gallopSeq (by with_unfolding_all decide)
      (by with_unfolding_all decide)).2⟩

/-- C1 (amended): while running, `applySequence` only records the new sequence
as pending — the transport's already-materialized callbacks, the logs, and the
current sequence are untouched.  In the spec's deferred-swap scenario (Walk/Jog
of duration 1.0, gallop applied at time 0.3 — before the cycle's boundary
evaluation, which runs `SCHEDULER_LOOKAHEAD` = 0.1 s early), the tones fired
before time 1.0 are exactly those of the undisturbed walk run, and the tones
from time 1.0 on are exactly the gallop sequence's (offsets 0 and 2/5 in each
cycle).  The claim's "at any time within the current cycle" is too strong:
see the counterexample for a call inside the lookahead window. -/
theorem applySequence_defers_swap_to_boundary (s : SchedulerState) (seq : StepSequence)
    (hrun : s.running = true) :
    (StepScheduler.applySequence s seq).transport = s.transport
    ∧ (StepScheduler.applySequence s seq).pendingSequence = some seq
    ∧ (StepScheduler.applySequence s seq).currentSequence = s.currentSequence
    ∧ (StepScheduler.applySequence s seq).toneLog = s.toneLog
    ∧ (StepScheduler.applySequence s seq).spriteLog = s.spriteLog
    ∧ swapRun.toneLog.filter (fun e => decide (e.time < 1))
        = noSwapRun.toneLog.filter (fun e => decide (e.time < 1))
    ∧ swapRun.toneLog.filter (fun e => decide (1 ≤ e.time))
        = [⟨"C5", Foot.L, 1⟩, ⟨"E5", Foot.R, 7 / 5⟩, ⟨"C5", Foot.L, 2⟩]
    ∧ toneOffsets gallopSeq = [0, 2 / 5]
    ∧ gallopSeq.duration = 1 := by
  refine ⟨?_, ?_, ?_, ?_, ?_, ?_, ?_, ?_, ?_⟩
  · simp [StepScheduler.applySequence, hrun]
  · simp [StepScheduler.applySequence, hrun]
  · simp [StepScheduler.applySequence, hrun]
  · simp [StepScheduler.applySequence, hrun]
  · simp [StepScheduler.applySequence, hrun]
  · with_unfolding_all decide
  · with_unfolding_all decide
  · with_unfolding_all decide
  · with_unfolding_all decide

/-- Witness for C1: the running state at transport time 0.3 of the scenario;
applying the gallop sequence there queues it as pending. -/
theorem applySequence_defers_swap_to_boundary_witness :
    (advanceLoop 64 (StepScheduler.applySequence initState walkSeq) (3 / 10)).running = true
    ∧ (StepScheduler.applySequence
        (advanceLoop 64 (StepScheduler.applySequence initState walkSeq) (3 / 10))
        gallopSeq).pendingSequence = some gallopSeq :=
  ⟨by with_unfolding_all decide,
   (applySequence_defers_swap_to_boundary _ gallopSeq (by with_unfolding_all decide)).2.1⟩

/-- C1 counterexample: applying the gallop sequence at transport time 0.95 —
while running, within the current cycle [0,1), but after the boundary
evaluation that ran at 0.9 — leaves the tones of [1,2) following the old
Walk/Jog timing (second tone at 1.5), not the gallop timing (second tone at
1.4) that the claim requires from the next cycle boundary onward. -/
theorem late_applySequence_misses_next_boundary :
    (advanceLoop 64 (StepScheduler.applySequence initState walkSeq) (19 / 20)).transport.seconds
        = 19 / 20
    ∧ (advanceLoop 64 (StepScheduler.applySequence initState walkSeq) (19 / 20)).running = true
    ∧ walkSeq.duration = 1
    ∧ lateSwapRun.toneLog.filter (fun e => decide (1 ≤ e.time ∧ e.time < 2))
        = [⟨"C5", Foot.L, 1⟩, ⟨"E5", Foot.R, 3 / 2⟩]
    ∧ lateSwapRun.toneLog.filter (fun e => decide (1 ≤ e.time ∧ e.time < 2))
        ≠ [⟨"C5", Foot.L, 1⟩, ⟨"E5", Foot.R, 7 / 5⟩] := by
  with_unfolding_all decide
